import Mathlib

/-
  Verification of the saffron-lang source-analysis core (src/parsing.rs and the
  hover service in src/main.rs).

  Modelling conventions:
  - Rust &str values are embedded as List Char; byte offsets coincide with
    character offsets because every concrete input used below is ASCII.
  - Rust's char::is_alphanumeric is Unicode-aware; it is modelled by
    Char.isAlphanum (the ASCII fragment).  All concrete inputs appearing in the
    development stay inside ASCII, where the two predicates agree.
  - nom's position() is called by each rule only after the rule has consumed its
    text, so the recorded offset of a token is the offset immediately after the
    token.  Each lexing rule is embedded as a function returning the number of
    consumed characters together with the token content; lex_line turns that
    into the recorded offset.
  - The Rust `loop` in lex_line does not terminate on every input, so lex_line
    is embedded with an explicit fuel parameter; a `none` result for every fuel
    value means the Rust loop runs forever.
-/

/-- Decidable equality for Except, used to evaluate the model on concrete inputs. -/
instance {ε α : Type} [DecidableEq ε] [DecidableEq α] : DecidableEq (Except ε α)
  | Except.error e, Except.error f =>
    if h : e = f then isTrue (h ▸ rfl) else isFalse (fun hh => by cases hh; exact h rfl)
  | Except.error _, Except.ok _ => isFalse (fun hh => Except.noConfusion hh)
  | Except.ok _, Except.error _ => isFalse (fun hh => Except.noConfusion hh)
  | Except.ok a, Except.ok b =>
    if h : a = b then isTrue (h ▸ rfl) else isFalse (fun hh => by cases hh; exact h rfl)

namespace Saffron

/-- Token payloads, from enum TokenContent in src/parsing.rs. -/
inductive TokenContent where
  | Module : TokenContent
  | Where : TokenContent
  | Equals : TokenContent
  | String : List Char → TokenContent
  | Space : Nat → TokenContent
  | Symbol : List Char → TokenContent
deriving DecidableEq

/-- struct Token: a recorded source offset plus content.  The offset is the
value of nom_locate's location_offset for the Span stored in the token, i.e.
the offset just after the token's text (position() is called after consuming). -/
structure Token where
  position : Nat
  content : TokenContent
deriving DecidableEq

/-- struct Tokens: an offset together with a token list. -/
structure Tokens where
  offset : Nat
  tokens : List Token
deriving DecidableEq

/-- enum ParseError. -/
inductive ParseError where
  | Wrong : ParseError
deriving DecidableEq

/-- Characters accepted by nom's space1 (spaces and tabs). -/
def isSpaceChar (c : Char) : Bool := c == ' ' || c == '\t'

/-- fn lex_space: space1, recording the run length.  Returns (consumed, content). -/
def lex_space (rest : List Char) : Option (Nat × TokenContent) :=
  let spaces := rest.takeWhile isSpaceChar
  if spaces.isEmpty then none
  else some (spaces.length, TokenContent.Space spaces.length)

/-- fn lex_module: tag "module". -/
def lex_module (rest : List Char) : Option (Nat × TokenContent) :=
  if List.isPrefixOf ("module".toList) rest then
    some (("module".toList).length, TokenContent.Module)
  else none

/-- fn lex_where: tag "where". -/
def lex_where (rest : List Char) : Option (Nat × TokenContent) :=
  if List.isPrefixOf ("where".toList) rest then
    some (("where".toList).length, TokenContent.Where)
  else none

/-- fn lex_reserved_name: alt((lex_module, lex_where)). -/
def lex_reserved_name (rest : List Char) : Option (Nat × TokenContent) :=
  match lex_module rest with
  | some r => some r
  | none => lex_where rest

/-- fn lex_equals: tag "=". -/
def lex_equals (rest : List Char) : Option (Nat × TokenContent) :=
  if List.isPrefixOf ("=".toList) rest then
    some (("=".toList).length, TokenContent.Equals)
  else none

/-- fn lex_symbol: take_while(char::is_alphanumeric).  nom's take_while also
succeeds on a zero-length match, so this rule never fails. -/
def lex_symbol (rest : List Char) : Option (Nat × TokenContent) :=
  some ((rest.takeWhile Char.isAlphanum).length,
    TokenContent.Symbol (rest.takeWhile Char.isAlphanum))

/-- fn lex_single_line_string: delimited(tag "\"", is_not "\"", tag "\"").
nom's is_not requires at least one matched character. -/
def lex_single_line_string (rest : List Char) : Option (Nat × TokenContent) :=
  match rest with
  | '"' :: after =>
    let content := after.takeWhile (fun c => c != '"')
    if content.isEmpty then none
    else
      match after.drop content.length with
      | '"' :: _ => some (content.length + 2, TokenContent.String content)
      | _ => none
  | _ => none

/-- fn lexer: alt((lex_space, lex_single_line_string, lex_reserved_name,
lex_equals, lex_symbol)) — first rule that succeeds wins. -/
def lexer (rest : List Char) : Option (Nat × TokenContent) :=
  match lex_space rest with
  | some r => some r
  | none =>
    match lex_single_line_string rest with
    | some r => some r
    | none =>
      match lex_reserved_name rest with
      | some r => some r
      | none =>
        match lex_equals rest with
        | some r => some r
        | none => lex_symbol rest

/-- The loop body of fn lex_line: `pos` is the offset of `rest` within the
original input, `tokens` the accumulator.  Each successful lexer step prepends
the new token (tokens.insert(0, token) in the source).  One unit of fuel is
spent per loop iteration; `none` means the fuel ran out before the Rust loop
would have returned. -/
def lexLineAux : Nat → List Char → Nat → List Token → Option (Except ParseError (List Token))
  | 0, _, _, _ => none
  | fuel+1, rest, pos, tokens =>
    if rest.isEmpty then some (Except.ok tokens)
    else
      match lexer rest with
      | some (k, c) =>
        lexLineAux fuel (rest.drop k) (pos + k) ((⟨pos + k, c⟩ : Token) :: tokens)
      | none => some (Except.error ParseError.Wrong)

/-- fn lex_line, with fuel. -/
def lex_line (fuel : Nat) (input : List Char) : Option (Except ParseError (List Token)) :=
  lexLineAux fuel input 0 []

/-- The Rust lex_line loop runs forever on this input: no fuel bound returns. -/
def lexLineDiverges (input : List Char) : Prop :=
  ∀ fuel, lex_line fuel input = none

/-- enum Partial (a single Empty variant). -/
inductive Partial where
  | Empty : Partial
deriving DecidableEq

/-- enum PartialExpr. -/
inductive PartialExpr where
  | Partial : Option Partial → Option Partial → Option Partial → PartialExpr
  | Empty : PartialExpr
deriving DecidableEq

/-- fn parse_partial: always returns Ok(PartialExpr::Empty). -/
def parse_partial (input : Tokens) : Except ParseError PartialExpr :=
  Except.ok PartialExpr.Empty

/-- fn combine_parts.  The right argument is a Result over a borrowed
PartialExpr in the source; the borrow is immaterial to the value computed.
vec![le, re].concat() is le ++ re. -/
def combine_parts (left : Except (List ParseError) PartialExpr)
    (right : Except (List ParseError) PartialExpr) :
    Except (List ParseError) PartialExpr :=
  match left with
  | Except.ok l =>
    match right with
    | Except.ok _ => Except.ok l
    | Except.error re => Except.error re
  | Except.error le =>
    match right with
    | Except.error re => Except.error (le ++ re)
    | Except.ok _ => Except.error le

/-- The error set carried by a combined result (empty for a success). -/
def combinedErrors : Except (List ParseError) PartialExpr → List ParseError
  | Except.ok _ => []
  | Except.error es => es

/-- enum Expr: an empty closed variant set. -/
inductive Expr : Type

/-- fn complete_expression: always Err(ParseError::Wrong). -/
def complete_expression (part : PartialExpr) : Except ParseError Expr :=
  Except.error ParseError.Wrong

/-- One step of str::lines: `cur` is the current line accumulated in reverse;
a line ending strips a carriage return directly before the newline, and a final
line without a trailing newline is kept as is (dropped only when empty). -/
def linesAux : List Char → List Char → List (List Char)
  | cur, [] => if cur.isEmpty then [] else [cur.reverse]
  | cur, '\n' :: rest =>
    (match cur with
      | '\r' :: cur' => cur'.reverse
      | _ => cur.reverse) :: linesAux [] rest
  | cur, c :: rest => linesAux (c :: cur) rest

/-- Rust's str::lines. -/
def rustLines (input : List Char) : List (List Char) :=
  linesAux [] input

/-- The per-line phase of fn parse_expr: lex each line and run parse_partial on
it, discarding any per-line error (the `Err(_) => ()` arms) and keeping the
successful partial expressions in order.  `none` propagates a line on which the
lexing loop never returns. -/
def processLines (fuel : Nat) : List (List Char) → Option (List PartialExpr)
  | [] => some []
  | line :: restLines =>
    match lex_line fuel line with
    | none => none
    | some (Except.error _) => processLines fuel restLines
    | some (Except.ok line_tokens) =>
      match parse_partial ⟨0, line_tokens⟩ with
      | Except.ok part => Option.map (fun ps => part :: ps) (processLines fuel restLines)
      | Except.error _ => processLines fuel restLines

/-- fn parse_expr: split into lines, lex and partially parse each line, fold
the successes with combine_parts from Ok(Empty), then finalize. -/
def parse_expr (fuel : Nat) (input : List Char) : Option (Except ParseError Expr) :=
  match processLines fuel (rustLines input) with
  | none => none
  | some partials =>
    match List.foldl combine_parts (Except.ok PartialExpr.Empty) (partials.map Except.ok) with
    | Except.ok result => some (complete_expression result)
    | Except.error _ => some (Except.error ParseError.Wrong)

/-- The Rust parse_expr never returns on this input. -/
def parseExprDiverges (input : List Char) : Prop :=
  ∀ fuel, parse_expr fuel input = none

/-- The two observable hover replies: a token-category message
("You're hovering on a ...") or the generic fallback ("Not sure what this is"). -/
inductive HoverMsg where
  | category : TokenContent → HoverMsg
  | unknown : HoverMsg
deriving DecidableEq

/-- The hover handler from src/main.rs, lines 118-155: lex the full stored
buffer text (pos.line is never consulted); on success keep the tokens whose
recorded offset is at or beyond pos.character and answer with the category of
the last such element of the token vector; otherwise fall through to the
generic message.  `none` models the handler never returning because the lexing
loop runs forever. -/
def hover (fuel : Nat) (text : List Char) (character : Nat) : Option HoverMsg :=
  match lex_line fuel text with
  | none => none
  | some (Except.error _) => some HoverMsg.unknown
  | some (Except.ok tokens) =>
    match (tokens.filter (fun t => decide (character ≤ t.position))).getLast? with
    | some result => some (HoverMsg.category result.content)
    | none => some HoverMsg.unknown

/-- The Rust hover handler never returns on this buffer/column. -/
def hoverDiverges (text : List Char) (character : Nat) : Prop :=
  ∀ fuel, hover fuel text character = none

namespace Lemmas

/-- If the lexer matches a zero-length prefix of a nonempty remainder, the
lex_line loop makes no progress and never returns, whatever the fuel. -/
theorem lexLineAux_no_progress (rest : List Char) (c : TokenContent)
    (hl : lexer rest = some (0, c)) (hne : rest.isEmpty = false) :
    ∀ fuel pos tokens, lexLineAux fuel rest pos tokens = none := by
  intro fuel
  induction fuel with
  | zero => intro pos tokens; rfl
  | succ n ih =>
    intro pos tokens
    simp only [lexLineAux, hne, Bool.false_eq_true, if_false, hl, List.drop_zero]
    exact ih (pos + 0) _

/-- The symbol rule always succeeds, hence so does the whole lexer: the
Err branch of lex_line is unreachable. -/
theorem lexer_isSome (rest : List Char) : (lexer rest).isSome = true := by
  unfold lexer
  cases lex_space rest with
  | some r => rfl
  | none =>
    cases lex_single_line_string rest with
    | some r => rfl
    | none =>
      cases lex_reserved_name rest with
      | some r => rfl
      | none =>
        cases lex_equals rest with
        | some r => rfl
        | none => rfl

/-- Invariant of the lex_line loop: a successful run returns a token list whose
recorded offsets strictly decrease from head to last (tokens are prepended, and
every productive step moves the offset strictly forward). -/
theorem lexLineAux_pairwise :
    ∀ fuel rest pos tokens out,
      (∀ t ∈ tokens, t.position ≤ pos) →
      List.Pairwise (fun a b => b.position < a.position) tokens →
      lexLineAux fuel rest pos tokens = some (Except.ok out) →
      List.Pairwise (fun a b => b.position < a.position) out := by
  intro fuel
  induction fuel with
  | zero =>
    intro rest pos tokens out _ _ h
    exact Option.noConfusion h
  | succ n ih =>
    intro rest pos tokens out hb hp h
    by_cases he : rest.isEmpty = true
    · simp only [lexLineAux, he, if_true] at h
      obtain rfl : tokens = out := by
        injection h with h; injection h
      exact hp
    · have he' : rest.isEmpty = false := by
        cases hr : rest.isEmpty
        · rfl
        · exact absurd hr he
      cases hl : lexer rest with
      | none =>
        simp only [lexLineAux, he', Bool.false_eq_true, if_false, hl] at h
        injection h with h; exact Except.noConfusion h
      | some kc =>
        obtain ⟨k, c⟩ := kc
        cases k with
        | zero =>
          rw [lexLineAux_no_progress rest c hl he' (n + 1) pos tokens] at h
          exact Option.noConfusion h
        | succ m =>
          simp only [lexLineAux, he', Bool.false_eq_true, if_false, hl] at h
          refine ih _ _ _ _ ?_ ?_ h
          · intro t ht
            rcases List.mem_cons.mp ht with h1 | h1
            · subst h1; exact Nat.le_refl _
            · exact Nat.le_trans (hb t h1) (Nat.le_add_right pos (m + 1))
          · refine List.Pairwise.cons ?_ hp
            intro t ht
            exact Nat.lt_of_le_of_lt (hb t ht) (Nat.lt_add_of_pos_right (Nat.succ_pos m))

/-- The head of a filtered list is the first element satisfying the filter. -/
theorem head_filter_eq_find {α : Type} (p : α → Bool) (l : List α) :
    (l.filter p).head? = l.find? p := by
  induction l with
  | nil => rfl
  | cons a l ih =>
    by_cases hpa : p a = true
    · simp [List.filter_cons, List.find?_cons, hpa]
    · simp only [Bool.not_eq_true] at hpa
      simp [List.filter_cons, List.find?_cons, hpa, ih]

/-- The last element of a filtered list is the first element of the reversed
list satisfying the filter. -/
theorem getLast_filter_eq_find_reverse {α : Type} (p : α → Bool) (l : List α) :
    (l.filter p).getLast? = l.reverse.find? p := by
  rw [← head_filter_eq_find, List.filter_reverse, List.head?_reverse]

/-- combine_parts is associative (helper shared by the fold lemmas). -/
theorem combine_parts_assoc_aux (a b c : Except (List ParseError) PartialExpr) :
    combine_parts (combine_parts a b) c = combine_parts a (combine_parts b c) := by
  cases a <;> cases b <;> cases c <;> simp [combine_parts, List.append_assoc]

/-- Folding from a combined seed equals combining with the folded tail. -/
theorem foldl_combine_shift (ys : List (Except (List ParseError) PartialExpr)) :
    ∀ A y, List.foldl combine_parts (combine_parts A y) ys =
      combine_parts A (List.foldl combine_parts y ys) := by
  induction ys with
  | nil => intro A y; rfl
  | cons z ys ih =>
    intro A y
    rw [List.foldl_cons, List.foldl_cons, combine_parts_assoc_aux]
    exact ih A (combine_parts y z)

end Lemmas

/-- C2 counterexample: Empty is not a left identity of combine_parts.  When both
sides are error-free the function returns its left value, so combining Empty
with the non-Empty value Partial(None, None, None) yields Empty, not that value. -/
theorem combine_empty_left_counterexample :
    combine_parts (Except.ok PartialExpr.Empty)
        (Except.ok ( PartialExpr.Partial none none none)) ≠
      Except.ok ( PartialExpr.Partial none none none) := by
  decide

/-- C2 (amended): Empty is a right identity of combine_parts, but not a left
identity: combining Empty with any error-free X returns Empty (combine_parts
keeps the left value and discards the right), so combine(Empty, X) = X only
when X is itself Empty. -/
theorem combine_empty_identity_amended :
    ∀ X : PartialExpr,
      combine_parts (Except.ok X) (Except.ok PartialExpr.Empty) = Except.ok X ∧
      combine_parts (Except.ok PartialExpr.Empty) (Except.ok X) =
        Except.ok PartialExpr.Empty :=
  fun _ => ⟨rfl, rfl⟩

/-- C5: refuted on the code.  The fallback symbol rule (take_while, not
take_while1) accepts a zero-length match, so on the input "!" the lexer
consumes nothing and the lex_line loop makes no forward progress: lex_line
never returns, for any amount of fuel. -/
theorem lex_symbol_zero_length_loop :
    lex_symbol ['!'] = some (0, TokenContent.Symbol []) ∧ lexLineDiverges ['!'] := by
  refine ⟨by decide, fun fuel => ?_⟩
  exact Lemmas.lexLineAux_no_progress ['!'] (TokenContent.Symbol []) (by decide)
    (by decide) fuel 0 []

/-- C4: refuted on the code.  The lexer as a whole never fails (its final
alternative always succeeds), so the single-lexing-error branch of lex_line is
unreachable; on an input whose prefix matches no real rule, such as "?",
lex_line neither returns a token list nor an error: it loops forever. -/
theorem lexer_total_lex_line_diverges :
    (∀ rest, (lexer rest).isSome = true) ∧ lexLineDiverges ['?'] := by
  refine ⟨Lemmas.lexer_isSome, fun fuel => ?_⟩
  exact Lemmas.lexLineAux_no_progress ['?'] (TokenContent.Symbol []) (by decide)
    (by decide) fuel 0 []

/-- C7: refuted on the code.  On the unterminated string input "\"abc" the
string rule fails (no closing quote), but lex_line does not fail with a lexing
error: the fallback symbol rule accepts a zero-length match at the quote
character and the loop runs forever. -/
theorem unterminated_string_diverges :
    lex_single_line_string ['"', 'a', 'b', 'c'] = none ∧
      lexLineDiverges ['"', 'a', 'b', 'c'] := by
  refine ⟨by decide, fun fuel => ?_⟩
  exact Lemmas.lexLineAux_no_progress ['"', 'a', 'b', 'c'] (TokenContent.Symbol [])
    (by decide) (by decide) fuel 0 []

/-- C6: combine_parts is associative; consequently folding an ordered sequence
of per-line results in any grouping (left-to-right, right-to-left, or any
balanced split of the sequence) yields the same result; and the accumulated
error set of a combination is exactly the concatenation of the two sides' error
sets, so no error is dropped or duplicated. -/
theorem combine_parts_is_associative :
    (∀ a b c : Except (List ParseError) PartialExpr,
        combine_parts (combine_parts a b) c = combine_parts a (combine_parts b c)) ∧
    (∀ (x y : Except (List ParseError) PartialExpr)
        (xs ys : List (Except (List ParseError) PartialExpr)),
        List.foldl combine_parts x (xs ++ y :: ys) =
          combine_parts (List.foldl combine_parts x xs) (List.foldl combine_parts y ys)) ∧
    (∀ a b : Except (List ParseError) PartialExpr,
        combinedErrors (combine_parts a b) = combinedErrors a ++ combinedErrors b) := by
  refine ⟨Lemmas.combine_parts_assoc_aux, ?_, ?_⟩
  · intro x y xs ys
    rw [List.foldl_append, List.foldl_cons]
    exact Lemmas.foldl_combine_shift ys (List.foldl combine_parts x xs) y
  · intro a b
    cases a <;> cases b <;> simp [combine_parts, combinedErrors]

/-- C9: the Finalizer always fails — complete_expression returns
Err(ParseError::Wrong) on every input — and consequently parse_expr never
produces a successful Expr: whenever it returns at all, the result is an error
(it fails to return only on documents whose lexing loop never terminates). -/
theorem parse_expr_always_fails :
    (∀ p, complete_expression p = Except.error ParseError.Wrong) ∧
    (∀ fuel input, parse_expr fuel input = none ∨
      parse_expr fuel input = some (Except.error ParseError.Wrong)) := by
  refine ⟨fun _ => rfl, fun fuel input => ?_⟩
  unfold parse_expr
  cases processLines fuel (rustLines input) with
  | none => exact Or.inl rfl
  | some partials =>
    dsimp only
    cases List.foldl combine_parts (Except.ok PartialExpr.Empty)
        (partials.map Except.ok) with
    | ok r => exact Or.inr rfl
    | error es => exact Or.inr rfl

/-- C10: parse_partial returns Ok(PartialExpr::Empty) on every token sequence;
it never produces a Partial fragment and never a ParseError. -/
theorem parse_partial_always_empty :
    ∀ ts : Tokens, parse_partial ts = Except.ok PartialExpr.Empty :=
  fun _ => rfl

/-- C3 counterexample: on the input "=x" a successful lex_line returns the
token vector [Symbol "x" at offset 2, Equals at offset 1] — the first element
is the rightmost token and the recorded offsets are not non-decreasing, because
each new token is inserted at the front of the vector. -/
theorem lex_line_order_counterexample :
    lex_line 3 ['=', 'x'] =
      some (Except.ok [⟨2, TokenContent.Symbol ['x']⟩, ⟨1, TokenContent.Equals⟩]) ∧
    ¬ List.Pairwise (fun a b => a.position ≤ b.position)
        [(⟨2, TokenContent.Symbol ['x']⟩ : Token), ⟨1, TokenContent.Equals⟩] := by
  constructor
  · decide
  · intro hp
    have := (List.pairwise_cons.mp hp).1 ⟨1, TokenContent.Equals⟩ (List.mem_singleton.mpr rfl)
    exact absurd this (by decide)

/-- C3 (amended): on every input on which lex_line succeeds, the returned
vector holds the tokens in reverse source order — the first element is the
rightmost token — with recorded span offsets strictly decreasing from the first
element to the last (tokens are prepended as lexing moves left to right, and
every successful run makes strictly positive progress at each step). -/
theorem lex_line_reverse_order (fuel : Nat) (input : List Char) (toks : List Token)
    (h : lex_line fuel input = some (Except.ok toks)) :
    List.Pairwise (fun a b => b.position < a.position) toks :=
  Lemmas.lexLineAux_pairwise fuel input 0 [] toks
    (fun t ht => absurd ht (List.not_mem_nil t)) List.Pairwise.nil h

/-- C3 witness: the amended theorem applied to the concrete input "=x". -/
theorem lex_line_reverse_order_witness :
    List.Pairwise (fun a b => b.position < a.position)
      [(⟨2, TokenContent.Symbol ['x']⟩ : Token), ⟨1, TokenContent.Equals⟩] :=
  lex_line_reverse_order 3 ['=', 'x']
    [⟨2, TokenContent.Symbol ['x']⟩, ⟨1, TokenContent.Equals⟩] (by decide)

/-- C8 counterexample: the hover handler lexes the entire stored buffer, not
the requested line.  On the two-line buffer "a\nb" at column 0 it never answers
(the buffer-wide lexing loop never terminates on the newline character), even
though the second line "b" on its own lexes successfully and contains a
qualifying token that the claim says would be reported. -/
theorem hover_whole_buffer_counterexample :
    hoverDiverges ['a', '\n', 'b'] 0 ∧
      lex_line 2 ['b'] = some (Except.ok [⟨1, TokenContent.Symbol ['b']⟩]) := by
  refine ⟨fun fuel => ?_, by decide⟩
  have hlex : lex_line fuel ['a', '\n', 'b'] = none := by
    cases fuel with
    | zero => rfl
    | succ n =>
      have h1 : lexer ['a', '\n', 'b'] = some (1, TokenContent.Symbol ['a']) := by decide
      show lexLineAux (n + 1) ['a', '\n', 'b'] 0 [] = none
      simp only [lexLineAux, List.isEmpty_cons, Bool.false_eq_true, if_false, h1,
        List.drop_succ_cons, List.drop_zero]
      exact Lemmas.lexLineAux_no_progress ['\n', 'b'] (TokenContent.Symbol [])
        (by decide) (by decide) n (0 + 1) _
  unfold hover
  rw [hlex]

/-- C8 (amended): the hover handler relexes the whole stored buffer (the
requested line number is ignored); when that lexing returns successfully it
reports the category of the first token in source order — the last element of
the reversed token vector — whose recorded offset is at or beyond the requested
column, and the generic unknown message when no token qualifies. -/
theorem hover_first_qualifying (fuel : Nat) (text : List Char) (col : Nat)
    (toks : List Token) (h : lex_line fuel text = some (Except.ok toks)) :
    hover fuel text col =
      some (match toks.reverse.find? (fun t => decide (col ≤ t.position)) with
        | some t => HoverMsg.category t.content
        | none => HoverMsg.unknown) := by
  unfold hover
  rw [h]
  dsimp only
  rw [Lemmas.getLast_filter_eq_find_reverse]
  cases toks.reverse.find? (fun t => decide (col ≤ t.position)) with
  | none => rfl
  | some t => rfl

/-- C8 witness: the amended theorem applied to the one-line buffer "=" at
column 0, where the qualifying token Equals is reported. -/
theorem hover_first_qualifying_witness :
    hover 2 ['='] 0 =
      some (match ([⟨1, TokenContent.Equals⟩] : List Token).reverse.find?
          (fun t => decide (0 ≤ t.position)) with
        | some t => HoverMsg.category t.content
        | none => HoverMsg.unknown) :=
  hover_first_qualifying 2 ['='] 0 [⟨1, TokenContent.Equals⟩] (by decide)

/-- C1: refuted on the code.  parse_expr discards every per-line failure (both
lexing and partial-parse errors are matched with `Err(_) => ()`), so only
successful partial results reach the combine_parts fold and the document-level
combined result is always Ok(Empty) — it never carries any error set, let alone
one of size 2.  Moreover a line that fails to lex never even yields an error:
on the two-line document "?\n!" whose lines each match no lexing rule,
parse_expr simply never returns. -/
theorem per_line_errors_dropped :
    parseExprDiverges ['?', '\n', '!'] ∧
    (∀ ps : List PartialExpr,
      List.foldl combine_parts (Except.ok PartialExpr.Empty) (ps.map Except.ok) =
        Except.ok PartialExpr.Empty) := by
  constructor
  · intro fuel
    have h1 : lex_line fuel ['?'] = none :=
      Lemmas.lexLineAux_no_progress ['?'] (TokenContent.Symbol []) (by decide)
        (by decide) fuel 0 []
    have hr : rustLines ['?', '\n', '!'] = [['?'], ['!']] := by decide
    have hp : processLines fuel [['?'], ['!']] = none := by
      unfold processLines
      rw [h1]
    unfold parse_expr
    rw [hr, hp]
  · intro ps
    induction ps with
    | nil => rfl
    | cons p ps ih =>
      rw [List.map_cons, List.foldl_cons]
      exact ih

end Saffron
